import Mathlib

/-!
Shallow embedding of the Jobby-App API backend (src/index.js and the two
earlier revisions preserved in src/unnamed/part_000), together with proofs
of the spec's testable properties.

Modelling conventions:
* Mongo collections become Lean lists paired with a fresh-id counter;
  `_id` values are natural numbers (we only ever consider well-formed ids,
  which abstracts away ObjectId cast errors).
* A JavaScript request field that may be absent is an `Option String`;
  JS falsiness of such a field (`!x`) is the `falsy` predicate below.
* Handlers are pure functions from request data and store state to an
  abstract `Status` (the spec's error taxonomy) plus response data and the
  post-state of the store.
* jsonwebtoken's `sign`/`verify` are third-party code, modelled from the
  spec as an idealized MAC: a signature binds exactly the signed payload
  and the signing secret, and verification checks the signature and the
  expiry (30 days from issue).
-/

namespace Jobby

/-- Abstract response statuses, following the spec's error taxonomy
(section 7 of the spec).  `ok` is HTTP 200, `created` 201, `conflict` the
400 duplicate-user response, `badRequest` 400 missing fields,
`unauthorized` 401, `forbidden` 403 (missing token), `notFound` 404,
`serverMisconfigured` the 500 missing-secret response, `internalError`
the catch-all 500. -/
inductive Status where
  | ok
  | created
  | conflict
  | invalidCredentials
  | unauthorized
  | forbidden
  | notFound
  | badRequest
  | serverMisconfigured
  | internalError
deriving DecidableEq, Repr

/-- JS falsiness of a possibly absent string field: `!x` is true exactly
when the field is absent (undefined/null) or the empty string. -/
def falsy : Option String → Bool
  | none => true
  | some s => s == ""

/- ------------------ Session tokens (jsonwebtoken model) ------------------ -/

/-- The claims the handlers put in a token payload: `{ id: ... }` in
src/index.js, `{ id, username, email }` in the bcrypt revision. -/
structure Claims where
  id : Nat
  username : Option String
  email : Option String
deriving DecidableEq, Repr

/-- A token payload: claims plus issued-at and expiry times (seconds). -/
structure Payload where
  claims : Claims
  iat : Nat
  exp : Nat
deriving DecidableEq, Repr

/-- Modelled from the spec: a signed bearer token.  The signature of an
ideal MAC binds the signing secret and the exact payload signed; tampering
with either payload or signature breaks the bond. -/
structure Token where
  payload : Payload
  sig : String × Payload
deriving DecidableEq, Repr

/-- The fixed validity window: `expiresIn: "30d"`, in seconds. -/
def thirtyDays : Nat := 30 * 24 * 60 * 60

/-- Modelled from the spec: jsonwebtoken `sign` with `expiresIn: "30d"`. -/
def sign (c : Claims) (secret : String) (now : Nat) : Token :=
  let p : Payload := ⟨c, now, now + thirtyDays⟩
  ⟨p, (secret, p)⟩

/-- Modelled from the spec: jsonwebtoken `verify` — succeeds exactly when
the signature matches the payload under the given secret and the token is
not yet expired, yielding the decoded claims. -/
def verify (t : Token) (secret : String) (now : Nat) : Option Claims :=
  if t.sig = (secret, t.payload) ∧ now < t.payload.exp then some t.payload.claims
  else none

/-- jsonwebtoken `sign` called with a possibly undefined secret: it throws
(`none`) when the secret is undefined. -/
def signOpt (c : Claims) (secret : Option String) (now : Nat) : Option Token :=
  match secret with
  | none => none
  | some s => some (sign c s now)

/-- Modelled from the spec: bcryptjs salted one-way hash, abstracted as an
injective tagging of the password (the claims never depend on its value,
only on the fact that the conflict check runs before hashing). -/
def bcryptHash (password : String) : String := String.append "bcrypt$" password

/- ------------------ User store ------------------ -/

/-- A persisted user record (mongoose User model). -/
structure User where
  id : Nat
  username : String
  password : String
  email : String
deriving DecidableEq, Repr

/-- The user collection plus the next fresh `_id`. -/
structure UserStore where
  nextId : Nat
  users : List User
deriving DecidableEq, Repr

/-- `User.findOne({ $or: [{ username }, { email }] })`. -/
def findDuplicate (username email : String) (s : UserStore) : Option User :=
  s.users.find? (fun u => u.username == username || u.email == email)

/-- POST /signup from src/index.js: secret guard, duplicate check, save,
sign `{ id }`. -/
def signup (secret : Option String) (now : Nat) (username password email : String)
    (s : UserStore) : Status × Option Token × UserStore :=
  match secret with
  | none => (Status.serverMisconfigured, none, s)
  | some sec =>
    match findDuplicate username email s with
    | some _ => (Status.conflict, none, s)
    | none =>
      let u : User := ⟨s.nextId, username, password, email⟩
      (Status.ok, some (sign ⟨s.nextId, none, none⟩ sec now),
        ⟨s.nextId + 1, s.users ++ [u]⟩)

/-- POST /signup from the bcrypt revision (src/unnamed/part_000, second
revision): secret guard, duplicate check, hash password, save, sign
`{ id, username, email }`. -/
def signupB (secret : Option String) (now : Nat) (username password email : String)
    (s : UserStore) : Status × Option Token × UserStore :=
  match secret with
  | none => (Status.serverMisconfigured, none, s)
  | some sec =>
    match findDuplicate username email s with
    | some _ => (Status.conflict, none, s)
    | none =>
      let u : User := ⟨s.nextId, username, bcryptHash password, email⟩
      (Status.ok, some (sign ⟨s.nextId, some username, some email⟩ sec now),
        ⟨s.nextId + 1, s.users ++ [u]⟩)

/-- POST /signup from the first revision (src/unnamed/part_000, lines
50-68): NO secret guard.  The user is saved first; `jwt.sign` with an
undefined secret then throws, which the handler's catch maps to the 500
catch-all — but the save has already happened. -/
def signupA (secret : Option String) (now : Nat) (username password email : String)
    (s : UserStore) : Status × Option Token × UserStore :=
  match findDuplicate username email s with
  | some _ => (Status.conflict, none, s)
  | none =>
    let u : User := ⟨s.nextId, username, password, email⟩
    let s2 : UserStore := ⟨s.nextId + 1, s.users ++ [u]⟩
    match signOpt ⟨s.nextId, none, none⟩ secret now with
    | none => (Status.internalError, none, s2)
    | some t => (Status.ok, some t, s2)

/-- POST /login (src/index.js): plaintext credential match via
`User.findOne({ username, password })`, then a fresh token over `{ id }`. -/
def login (secret : Option String) (now : Nat) (username password : String)
    (s : UserStore) : Status × Option Token :=
  match secret with
  | none => (Status.serverMisconfigured, none)
  | some sec =>
    match s.users.find? (fun x => x.username == username && x.password == password) with
    | none => (Status.invalidCredentials, none)
    | some x => (Status.ok, some (sign ⟨x.id, none, none⟩ sec now))

/-- DELETE /users/:id (src/index.js): `User.findByIdAndDelete`. -/
def deleteUser (id : Nat) (s : UserStore) : Status × UserStore :=
  match s.users.find? (fun u => u.id == id) with
  | none => (Status.notFound, s)
  | some _ => (Status.ok, ⟨s.nextId, s.users.filter (fun u => u.id != id)⟩)

/-- The response shape of GET /protected in the bcrypt revision:
`User.findById(req.userId, { password: 0 })` — the record minus the
password field (this structure has no password field at all). -/
structure UserView where
  id : Nat
  username : String
  email : String
deriving DecidableEq, Repr

/-- The `authenticate` middleware of the bcrypt revision: takes the
space-split parts of the authorization header (each part either parses as
a token or not), reads part 1 (`token.split(' ')[1]`), and verifies it.
A missing header is 403; a missing/garbage part or failed verification is
401. -/
def authenticateB (secret : Option String) (now : Nat)
    (parts : Option (List (Option Token))) : Except Status Claims :=
  match parts with
  | none => Except.error Status.forbidden
  | some ps =>
    match ps[1]? with
    | some (some t) =>
      match secret with
      | none => Except.error Status.unauthorized
      | some sec =>
        match verify t sec now with
        | some c => Except.ok c
        | none => Except.error Status.unauthorized
    | _ => Except.error Status.unauthorized

/-- GET /protected in the bcrypt revision: authenticate, then fetch the
identified user with the password projected away; 404 if absent. -/
def getProtectedB (secret : Option String) (now : Nat)
    (parts : Option (List (Option Token))) (s : UserStore) : Status × Option UserView :=
  match authenticateB secret now parts with
  | Except.error st => (st, none)
  | Except.ok c =>
    match s.users.find? (fun u => u.id == c.id) with
    | none => (Status.notFound, none)
    | some u => (Status.ok, some ⟨u.id, u.username, u.email⟩)

/- ------------------ Job store ------------------ -/

/-- A valid job payload: a value of this type supplies every field the
mongoose Job schema requires (title, job_description, location,
employment_type, package_per_annum) plus the optional/defaulted ones. -/
structure Job where
  title : String
  company_logo_url : Option String
  rating : Int
  job_description : String
  location : String
  employment_type : String
  package_per_annum : String
  company_website_url : String
  life_at_company_description : String
  life_at_company_image_url : String
  skills : List (String × String)
deriving DecidableEq, Repr

/-- The job collection plus the next fresh `_id`. -/
structure JobStore where
  nextId : Nat
  jobs : List (Nat × Job)
deriving DecidableEq, Repr

/-- A store is well formed when every persisted `_id` is below the fresh
counter (Mongo never reuses an `_id`). -/
def JobStore.wf (s : JobStore) : Prop :=
  ∀ p ∈ s.jobs, p.1 < s.nextId

/-- `insertMany`/`save` id assignment: consecutive fresh ids from `base`. -/
def assignIds (base : Nat) : List Job → List (Nat × Job)
  | [] => []
  | j :: js => (base, j) :: assignIds (base + 1) js

/-- The request body of POST /api/jobs: `Array.isArray(jobs)` decides
between `insertMany` and a single `save`. -/
inductive JobsBody where
  | arr (js : List Job)
  | single (j : Job)
deriving Repr

/-- POST /api/jobs (src/index.js): bulk insert for an array body, single
save otherwise; both return the created record(s) with a 201 status. -/
def postJobs (body : JobsBody) (s : JobStore) : Status × List (Nat × Job) × JobStore :=
  match body with
  | JobsBody.arr js =>
    let created := assignIds s.nextId js
    (Status.created, created, ⟨s.nextId + js.length, s.jobs ++ created⟩)
  | JobsBody.single j =>
    let created := assignIds s.nextId [j]
    (Status.created, created, ⟨s.nextId + 1, s.jobs ++ created⟩)

/-- GET /api/jobs/:id (src/index.js): `Job.findById`, 404 when absent. -/
def getJob (id : Nat) (s : JobStore) : Status × Option (Nat × Job) :=
  match s.jobs.find? (fun p => p.1 == id) with
  | none => (Status.notFound, none)
  | some p => (Status.ok, some p)

/-- DELETE /api/jobs/:id (src/index.js): `Job.findByIdAndDelete`. -/
def deleteJob (id : Nat) (s : JobStore) : Status × JobStore :=
  match s.jobs.find? (fun p => p.1 == id) with
  | none => (Status.notFound, s)
  | some _ => (Status.ok, ⟨s.nextId, s.jobs.filter (fun p => p.1 != id)⟩)

/- ------------------ Feedback store (mongoose revision) ------------------ -/

/-- A persisted feedback record of the bcrypt revision's mongoose model:
username and message required, email optional, timestamps automatic. -/
structure FeedbackB where
  id : Nat
  username : String
  email : Option String
  message : String
  createdAt : Nat
  updatedAt : Nat
deriving DecidableEq, Repr

/-- The mongoose feedback collection plus the next fresh `_id`. -/
structure FeedbackBStore where
  nextId : Nat
  items : List FeedbackB
deriving DecidableEq, Repr

/-- POST /api/feedback (src/unnamed/part_000, bcrypt revision): rejects a
falsy username or message with 400, otherwise saves
`new Feedback({ username, email, message })`. -/
def postApiFeedback (username email message : Option String) (now : Nat)
    (s : FeedbackBStore) : Status × FeedbackBStore :=
  if falsy username || falsy message then (Status.badRequest, s)
  else
    let f : FeedbackB :=
      ⟨s.nextId, username.getD "", email, message.getD "", now, now⟩
    (Status.created, ⟨s.nextId + 1, s.items ++ [f]⟩)

/-- DELETE /api/feedback/:id (bcrypt revision): `Feedback.findByIdAndDelete`. -/
def deleteApiFeedback (id : Nat) (s : FeedbackBStore) : Status × FeedbackBStore :=
  match s.items.find? (fun f => f.id == id) with
  | none => (Status.notFound, s)
  | some _ => (Status.ok, ⟨s.nextId, s.items.filter (fun f => f.id != id)⟩)

/- ------------- Feedback routes over a direct collection handle -------------
src/index.js accesses `db.collection("feedback")` directly.  Documents are
schemaless, so we model a document body as an insertion-ordered association
list of fields; a JS object literal keeps the last value written to a key,
which `applySet` realizes. -/

/-- A schemaless document body: ordered field/value pairs. -/
abbrev Doc := List (String × String)

/-- First-match field lookup in a document whose keys are unique. -/
def lookupField : Doc → String → Option String
  | [], _ => none
  | (k2, v) :: rest, k => if k2 == k then some v else lookupField rest k

/-- The value the LAST entry for a key carries (JS object construction and
`$set` both let later writes win). -/
def lookupLast : List (String × String) → String → Option String
  | [], _ => none
  | (k2, v) :: rest, k =>
    (lookupLast rest k).or (if k2 == k then some v else none)

/-- Write one field: replace the existing entry or append a new one. -/
def setField : Doc → String → String → Doc
  | [], k, v => [(k, v)]
  | (k2, v2) :: rest, k, v =>
    if k2 == k then (k2, v) :: rest else (k2, v2) :: setField rest k v

/-- Apply a sequence of field writes in order (later writes win): the
semantics of both a JS object literal with spreads and Mongo `$set`. -/
def applySet (d : Doc) (writes : List (String × String)) : Doc :=
  writes.foldl (fun acc kv => setField acc kv.1 kv.2) d

/-- A stored feedback document: its `_id` plus its body. -/
structure FDoc where
  id : Nat
  fields : Doc
deriving DecidableEq, Repr

/-- The `feedback` collection behind the direct handle, with fresh ids. -/
structure FColl where
  nextId : Nat
  docs : List FDoc
deriving DecidableEq, Repr

/-- The collection handle named `db` that the feedback routes of
src/index.js dereference.  No binding for the name `db` exists anywhere in
that file (its top-level bindings are the imports plus sign, verify, app,
PORT, jobSchema, Job, userSchema, User and ObjectId), so the dereference
throws a ReferenceError at runtime; we model the unbound handle as `none`. -/
def indexJsDb : Option FColl := none

/-- POST /feedback (src/index.js): destructure username/message, validate
them FIRST (the 400 return precedes the `db` dereference), then build
`{ username, message, ...rest, createdAt }` and `insertOne` it.  The
handle being `none` models the ReferenceError, caught as a 500. -/
def postFeedback (db : Option FColl) (body : Doc) (ts : String) :
    Status × Option FColl × Option Nat :=
  let username := lookupField body "username"
  let message := lookupField body "message"
  if falsy username || falsy message then (Status.badRequest, db, none)
  else
    match db with
    | none => (Status.internalError, none, none)
    | some c =>
      let rest := body.filter (fun kv => kv.1 != "username" && kv.1 != "message")
      let doc := applySet []
        ([("username", username.getD ""), ("message", message.getD "")] ++ rest
          ++ [("createdAt", ts)])
      (Status.created, some ⟨c.nextId + 1, c.docs ++ [⟨c.nextId, doc⟩]⟩,
        some c.nextId)

/-- GET /feedback (src/index.js): list everything in the collection. -/
def getFeedbackAll (db : Option FColl) : Status × List FDoc :=
  match db with
  | none => (Status.internalError, [])
  | some c => (Status.ok, c.docs)

/-- GET /feedback/:id (src/index.js): `findOne` by `_id`, 404 if absent. -/
def getFeedbackById (db : Option FColl) (id : Nat) : Status × Option FDoc :=
  match db with
  | none => (Status.internalError, none)
  | some c =>
    match c.docs.find? (fun d => d.id == id) with
    | none => (Status.notFound, none)
    | some d => (Status.ok, some d)

/-- Mongo `updateOne` with a `$set` document: update the first document
matching the `_id`, returning the matched count and the new list. -/
def updateDocs (id : Nat) (writes : List (String × String)) :
    List FDoc → Nat × List FDoc
  | [] => (0, [])
  | d :: ds =>
    if d.id == id then (1, ⟨d.id, applySet d.fields writes⟩ :: ds)
    else
      let r := updateDocs id writes ds
      (r.1, d :: r.2)

/-- PUT /feedback/:id (src/index.js): `updateOne({_id}, { $set:
{ ...updates, updatedAt: new Date() } })`; 404 when nothing matched. -/
def putFeedback (db : Option FColl) (id : Nat) (updates : List (String × String))
    (ts : String) : Status × Option FColl :=
  match db with
  | none => (Status.internalError, none)
  | some c =>
    let r := updateDocs id (updates ++ [("updatedAt", ts)]) c.docs
    if r.1 == 0 then (Status.notFound, some ⟨c.nextId, r.2⟩)
    else (Status.ok, some ⟨c.nextId, r.2⟩)

/-- DELETE /feedback/:id (src/index.js): `deleteOne` by `_id`, 404 when
nothing was deleted. -/
def deleteFeedback (db : Option FColl) (id : Nat) : Status × Option FColl :=
  match db with
  | none => (Status.internalError, none)
  | some c =>
    match c.docs.find? (fun d => d.id == id) with
    | none => (Status.notFound, some c)
    | some _ =>
      (Status.ok, some ⟨c.nextId, c.docs.filter (fun d => d.id != id)⟩)

/- ------------------ Helper lemmas ------------------ -/

theorem assignIds_length (base : Nat) (js : List Job) :
    (assignIds base js).length = js.length := by
  induction js generalizing base with
  | nil => rfl
  | cons j js ih => simp [assignIds, ih]

theorem assignIds_mem_lb (base : Nat) (js : List Job) :
    ∀ p ∈ assignIds base js, base ≤ p.1 := by
  induction js generalizing base with
  | nil => intro p hp; cases hp
  | cons j js ih =>
    intro p hp
    rcases List.mem_cons.mp hp with h | h
    · subst h; exact Nat.le_refl base
    · exact Nat.le_of_succ_le (ih (base + 1) p h)

theorem assignIds_find_self (base : Nat) (js : List Job) :
    ∀ p ∈ assignIds base js,
      (assignIds base js).find? (fun q => q.1 == p.1) = some p := by
  induction js generalizing base with
  | nil => intro p hp; cases hp
  | cons j js ih =>
    intro p hp
    rcases List.mem_cons.mp hp with h | h
    · subst h
      exact List.find?_cons_of_pos _ (by simp)
    · have hlb : base + 1 ≤ p.1 := assignIds_mem_lb (base + 1) js p h
      have hne : ¬ ((base, j).1 == p.1) = true := by
        simp only [beq_iff_eq]
        exact fun hc => absurd (hc ▸ hlb) (Nat.not_succ_le_self base)
      show List.find? (fun q => q.1 == p.1) ((base, j) :: assignIds (base + 1) js) = some p
      rw [List.find?_cons_of_neg (p := fun q : Nat × Job => q.1 == p.1) _ hne]
      exact ih (base + 1) p h

theorem lookup_setField_self (k v : String) :
    ∀ d : Doc, lookupField (setField d k v) k = some v := by
  intro d
  induction d with
  | nil => simp [setField, lookupField]
  | cons kv rest ih =>
    obtain ⟨k2, v2⟩ := kv
    by_cases h : k2 = k
    · simp [setField, lookupField, h]
    · simp [setField, lookupField, h, ih]

theorem lookup_setField_other (k v k2 : String) (h : k2 ≠ k) :
    ∀ d : Doc, lookupField (setField d k v) k2 = lookupField d k2 := by
  have hne : ¬ k = k2 := fun hc => h hc.symm
  intro d
  induction d with
  | nil => simp [setField, lookupField, hne]
  | cons kv rest ih =>
    obtain ⟨k3, v3⟩ := kv
    by_cases h3 : k3 = k
    · subst h3
      simp [setField, lookupField, hne]
    · simp [setField, lookupField, h3, ih]

theorem lookup_applySet (ws : List (String × String)) :
    ∀ (d : Doc) (k : String),
      lookupField (applySet d ws) k = (lookupLast ws k).or (lookupField d k) := by
  induction ws with
  | nil => intro d k; simp [applySet, lookupLast]
  | cons kv rest ih =>
    intro d k
    obtain ⟨k1, v1⟩ := kv
    have hstep : applySet d ((k1, v1) :: rest) = applySet (setField d k1 v1) rest := rfl
    rw [hstep, ih (setField d k1 v1) k, lookupLast]
    cases hrest : lookupLast rest k with
    | some v2 => simp
    | none =>
      simp only [Option.none_or]
      by_cases hk : k1 = k
      · subst hk; simp [lookup_setField_self]
      · simp [hk, lookup_setField_other k1 v1 k (fun hc => hk hc.symm)]

theorem lookupLast_append (l1 l2 : List (String × String)) (k : String) :
    lookupLast (l1 ++ l2) k = (lookupLast l2 k).or (lookupLast l1 k) := by
  induction l1 with
  | nil => simp [lookupLast]
  | cons kv rest ih =>
    obtain ⟨k1, v1⟩ := kv
    simp only [List.cons_append, lookupLast, List.append_eq, ih, Option.or_assoc]

theorem lookupLast_not_mem (ws : List (String × String)) (k : String)
    (h : k ∉ ws.map Prod.fst) : lookupLast ws k = none := by
  induction ws with
  | nil => rfl
  | cons kv rest ih =>
    obtain ⟨k1, v1⟩ := kv
    have h1 : k1 ≠ k := by
      intro hc; exact h (by simp [hc])
    have h2 : k ∉ rest.map Prod.fst := by
      intro hc; exact h (by simp [hc])
    simp [lookupLast, ih h2, h1]

theorem lookupLast_of_nodup (ws : List (String × String)) (k v : String)
    (hmem : (k, v) ∈ ws) (hnd : (ws.map Prod.fst).Nodup) :
    lookupLast ws k = some v := by
  induction ws with
  | nil => cases hmem
  | cons kv rest ih =>
    obtain ⟨k1, v1⟩ := kv
    have hnd2 : (rest.map Prod.fst).Nodup := (List.nodup_cons.mp hnd).2
    have hk1 : k1 ∉ rest.map Prod.fst := (List.nodup_cons.mp hnd).1
    rcases List.mem_cons.mp hmem with h | h
    · obtain ⟨hk, hv⟩ := Prod.mk.injEq .. ▸ h
      subst hk; subst hv
      rw [lookupLast, lookupLast_not_mem rest k hk1]
      simp
    · have := ih h hnd2
      simp [lookupLast, this]

theorem updateDocs_skip (id : Nat) (ws : List (String × String)) :
    ∀ l1 l2 : List FDoc, (∀ d ∈ l1, d.id ≠ id) →
      updateDocs id ws (l1 ++ l2) =
        ((updateDocs id ws l2).1, l1 ++ (updateDocs id ws l2).2) := by
  intro l1
  induction l1 with
  | nil => intro l2 _; rfl
  | cons d ds ih =>
    intro l2 h
    have hd : ¬ (d.id == id) = true := by
      simp only [beq_iff_eq]
      exact h d (List.mem_cons_self d ds)
    simp only [List.cons_append, updateDocs, if_neg hd, List.append_eq,
      ih l2 (fun e he => h e (List.mem_cons_of_mem d he))]

theorem updateDocs_hit (id : Nat) (ws : List (String × String)) (d : FDoc)
    (l2 : List FDoc) (hd : d.id = id) :
    updateDocs id ws (d :: l2) = (1, ⟨d.id, applySet d.fields ws⟩ :: l2) := by
  simp [updateDocs, hd]

theorem find_pred_none {α : Type} (p : α → Bool) (l : List α)
    (h : ∀ a ∈ l, ¬ p a = true) : l.find? p = none :=
  List.find?_eq_none.mpr h

/- ------------------ Claim theorems ------------------ -/

/-- C1: whenever a user with the same username or the same email is
already in the store, signup (both the src/index.js handler and the bcrypt
revision) yields Conflict and leaves the user store unchanged, so no
duplicate record is created. -/
theorem signup_duplicate_conflict (sec : String) (now : Nat) (u p e : String)
    (s : UserStore)
    (hdup : ∃ x ∈ s.users, x.username = u ∨ x.email = e) :
    signup (some sec) now u p e s = (Status.conflict, none, s) ∧
    signupB (some sec) now u p e s = (Status.conflict, none, s) := by
  obtain ⟨x, hx, hxe⟩ := hdup
  have hpred : (fun y : User => y.username == u || y.email == e) x = true := by
    rcases hxe with h | h <;> simp [h]
  have hs : ((s.users.find? (fun y => y.username == u || y.email == e))).isSome :=
    List.find?_isSome.mpr ⟨x, hx, hpred⟩
  obtain ⟨v, hv⟩ := Option.isSome_iff_exists.mp hs
  constructor <;> simp [signup, signupB, findDuplicate, hv]

/-- C1 witness: a concrete store holding alice; signing up with the same
username (fresh email) is rejected with Conflict and the store is kept. -/
theorem signup_duplicate_conflict_witness :
    (∃ x ∈ (⟨1, [⟨0, "alice", "pw", "a@x.com"⟩]⟩ : UserStore).users,
        x.username = "alice" ∨ x.email = "b@y.com") ∧
    (signup (some "k") 0 "alice" "pw2" "b@y.com" ⟨1, [⟨0, "alice", "pw", "a@x.com"⟩]⟩ =
        (Status.conflict, none, ⟨1, [⟨0, "alice", "pw", "a@x.com"⟩]⟩) ∧
      signupB (some "k") 0 "alice" "pw2" "b@y.com" ⟨1, [⟨0, "alice", "pw", "a@x.com"⟩]⟩ =
        (Status.conflict, none, ⟨1, [⟨0, "alice", "pw", "a@x.com"⟩]⟩)) :=
  ⟨⟨⟨0, "alice", "pw", "a@x.com"⟩, by simp, Or.inl rfl⟩,
    signup_duplicate_conflict "k" 0 "alice" "pw2" "b@y.com" _
      ⟨⟨0, "alice", "pw", "a@x.com"⟩, by simp, Or.inl rfl⟩⟩

/-- C4: deleting an id absent from the respective store — user (DELETE
/users/:id), job (DELETE /api/jobs/:id), feedback (DELETE
/api/feedback/:id of the bcrypt revision) — yields NotFound and leaves the
store untouched. -/
theorem delete_missing_notFound (idU idJ idF : Nat) (su : UserStore)
    (sj : JobStore) (sf : FeedbackBStore)
    (hu : ∀ x ∈ su.users, x.id ≠ idU)
    (hj : ∀ q ∈ sj.jobs, q.1 ≠ idJ)
    (hf : ∀ f ∈ sf.items, f.id ≠ idF) :
    deleteUser idU su = (Status.notFound, su) ∧
    deleteJob idJ sj = (Status.notFound, sj) ∧
    deleteApiFeedback idF sf = (Status.notFound, sf) := by
  have h1 : su.users.find? (fun x => x.id == idU) = none :=
    find_pred_none _ _ (fun a ha => by simpa using hu a ha)
  have h2 : sj.jobs.find? (fun q => q.1 == idJ) = none :=
    find_pred_none _ _ (fun a ha => by simpa using hj a ha)
  have h3 : sf.items.find? (fun f => f.id == idF) = none :=
    find_pred_none _ _ (fun a ha => by simpa using hf a ha)
  refine ⟨?_, ?_, ?_⟩ <;> simp [deleteUser, deleteJob, deleteApiFeedback, h1, h2, h3]

/-- C4 witness: deleting id 5 from stores that do not contain it. -/
theorem delete_missing_notFound_witness :
    (∀ x ∈ (⟨1, [⟨0, "alice", "pw", "a@x.com"⟩]⟩ : UserStore).users, x.id ≠ 5) ∧
    (∀ q ∈ (⟨0, []⟩ : JobStore).jobs, q.1 ≠ 5) ∧
    (∀ f ∈ (⟨0, []⟩ : FeedbackBStore).items, f.id ≠ 5) ∧
    (deleteUser 5 ⟨1, [⟨0, "alice", "pw", "a@x.com"⟩]⟩ =
        (Status.notFound, ⟨1, [⟨0, "alice", "pw", "a@x.com"⟩]⟩) ∧
      deleteJob 5 ⟨0, []⟩ = (Status.notFound, ⟨0, []⟩) ∧
      deleteApiFeedback 5 ⟨0, []⟩ = (Status.notFound, ⟨0, []⟩)) :=
  ⟨by decide, fun q hq => absurd hq (List.not_mem_nil q),
    fun f hf => absurd hf (List.not_mem_nil f),
    delete_missing_notFound 5 5 5 _ _ _ (by decide)
      (fun q hq => absurd hq (List.not_mem_nil q))
      (fun f hf => absurd hf (List.not_mem_nil f))⟩

/-- C5 (amended): a createFeedback request whose message is absent or the
empty string yields BadRequest and creates nothing, in both the mongoose
revision (POST /api/feedback) and the direct-collection revision (POST
/feedback) — but the check is JS falsiness, so this covers exactly
undefined/null/"" and NOT whitespace-only messages. -/
theorem feedback_empty_message_badRequest (username email message : Option String)
    (now : Nat) (s : FeedbackBStore) (db : Option FColl) (body : Doc) (ts : String)
    (hm : falsy message = true) (hb : falsy (lookupField body "message") = true) :
    postApiFeedback username email message now s = (Status.badRequest, s) ∧
    postFeedback db body ts = (Status.badRequest, db, none) := by
  constructor
  · simp [postApiFeedback, hm]
  · simp [postFeedback, hb]

/-- C5 witness: an empty-string message (other fields present) is rejected
by both handlers and neither store changes. -/
theorem feedback_empty_message_badRequest_witness :
    falsy (some "") = true ∧
    falsy (lookupField [("username", "alice")] "message") = true ∧
    (postApiFeedback (some "alice") none (some "") 0 ⟨0, []⟩ =
        (Status.badRequest, ⟨0, []⟩) ∧
      postFeedback (some ⟨0, []⟩) [("username", "alice")] "T" =
        (Status.badRequest, some ⟨0, []⟩, none)) :=
  ⟨rfl, rfl,
    feedback_empty_message_badRequest (some "alice") none (some "") 0 ⟨0, []⟩
      (some ⟨0, []⟩) [("username", "alice")] "T" rfl rfl⟩

/-- C5 counterexample: a whitespace-only ("blank") message is NOT rejected
— the mongoose-revision handler persists a feedback record with it and
answers Created, contradicting the claim that an empty/blank message
always yields BadRequest with no record created. -/
theorem feedback_blank_message_created :
    postApiFeedback (some "alice") none (some " ") 0 ⟨0, []⟩ =
      (Status.created, ⟨1, [⟨0, "alice", none, " ", 0, 0⟩]⟩) ∧
    (postApiFeedback (some "alice") none (some " ") 0 ⟨0, []⟩).1 ≠ Status.badRequest ∧
    (postApiFeedback (some "alice") none (some " ") 0 ⟨0, []⟩).2.items.length = 1 :=
  ⟨rfl, by decide, rfl⟩

/-- C6 (amended): with the unbound `db` handle of src/index.js, the
feedback list, fetch-by-id, update, and delete handlers return
InternalError on every invocation, and the create handler does so on every
invocation that passes its field validation; none of them ever persists,
modifies, or removes a feedback record (the post-state handle stays
`none`).  Create invocations failing validation return BadRequest instead,
because the validation precedes the `db` dereference. -/
theorem feedback_routes_unbound_db (body : Doc) (ts : String) (id : Nat)
    (updates : List (String × String))
    (hvalid : (falsy (lookupField body "username") ||
      falsy (lookupField body "message")) = false) :
    postFeedback indexJsDb body ts = (Status.internalError, none, none) ∧
    getFeedbackAll indexJsDb = (Status.internalError, []) ∧
    getFeedbackById indexJsDb id = (Status.internalError, none) ∧
    putFeedback indexJsDb id updates ts = (Status.internalError, none) ∧
    deleteFeedback indexJsDb id = (Status.internalError, none) := by
  refine ⟨?_, rfl, rfl, rfl, rfl⟩
  simp [postFeedback, indexJsDb, hvalid]

/-- C6 witness: a well-formed create request plus the other four handlers,
all ending in InternalError with nothing persisted. -/
theorem feedback_routes_unbound_db_witness :
    (falsy (lookupField [("username", "a"), ("message", "m")] "username") ||
      falsy (lookupField [("username", "a"), ("message", "m")] "message")) = false ∧
    (postFeedback indexJsDb [("username", "a"), ("message", "m")] "T" =
        (Status.internalError, none, none) ∧
      getFeedbackAll indexJsDb = (Status.internalError, []) ∧
      getFeedbackById indexJsDb 0 = (Status.internalError, none) ∧
      putFeedback indexJsDb 0 [("message", "x")] "T" = (Status.internalError, none) ∧
      deleteFeedback indexJsDb 0 = (Status.internalError, none)) :=
  ⟨rfl, feedback_routes_unbound_db [("username", "a"), ("message", "m")] "T" 0
    [("message", "x")] rfl⟩

/-- C6 counterexample: a create invocation with an absent username and
message returns BadRequest, not InternalError — so not EVERY invocation of
the create handler takes the catch branch, refuting the claim as stated. -/
theorem feedback_create_validation_before_db :
    postFeedback indexJsDb [] "T" = (Status.badRequest, none, none) ∧
    (postFeedback indexJsDb [] "T").1 ≠ Status.internalError :=
  ⟨rfl, by decide⟩

/-- C7 (amended): in the two revisions that guard the signing secret
(src/index.js and the bcrypt revision), a signup issued while the secret
is unset yields ServerMisconfigured and leaves the user store unchanged.
The first revision has no such guard and is excluded (see the
counterexample). -/
theorem signup_missing_secret (now : Nat) (u p e : String) (s : UserStore) :
    signup none now u p e s = (Status.serverMisconfigured, none, s) ∧
    signupB none now u p e s = (Status.serverMisconfigured, none, s) :=
  ⟨rfl, rfl⟩

/-- C7 counterexample: the first-revision signup (no secret guard) called
with the secret unset SAVES the user before `jwt.sign` throws: the store
gains a record and the status is the catch-all InternalError rather than
ServerMisconfigured, refuting the claim for that revision. -/
theorem signupA_creates_user_without_secret :
    signupA none 0 "alice" "pw" "a@x.com" ⟨0, []⟩ =
      (Status.internalError, none, ⟨1, [⟨0, "alice", "pw", "a@x.com"⟩]⟩) ∧
    (signupA none 0 "alice" "pw" "a@x.com" ⟨0, []⟩).2.2 ≠ (⟨0, []⟩ : UserStore) ∧
    (signupA none 0 "alice" "pw" "a@x.com" ⟨0, []⟩).1 ≠ Status.serverMisconfigured :=
  ⟨rfl, by decide, by decide⟩

/-- C2: a token issued by a successful signup (and, in the last conjunct,
by a successful login) verifies immediately under the same secret to the
identifier of the very user record that was created/matched; verification
fails once the 30-day expiry has passed, and fails for any token whose
payload or signature has been tampered with. -/
theorem token_roundtrip (sec : String) (now : Nat) (u p e : String)
    (s : UserStore) (hdup : findDuplicate u e s = none) :
    ∃ t : Token,
      signup (some sec) now u p e s =
        (Status.ok, some t, ⟨s.nextId + 1, s.users ++ [⟨s.nextId, u, p, e⟩]⟩) ∧
      verify t sec now = some ⟨s.nextId, none, none⟩ ∧
      (∀ n, t.payload.exp ≤ n → verify t sec n = none) ∧
      (∀ pl : Payload, pl ≠ t.payload →
        ∀ n, verify { payload := pl, sig := t.sig } sec n = none) ∧
      (∀ sg, sg ≠ t.sig →
        ∀ n, verify { payload := t.payload, sig := sg } sec n = none) ∧
      (∀ un pw x, s.users.find? (fun y => y.username == un && y.password == pw) = some x →
        ∃ t2 : Token, login (some sec) now un pw s = (Status.ok, some t2) ∧
          verify t2 sec now = some ⟨x.id, none, none⟩) := by
  have hlt : now < now + thirtyDays := Nat.lt_add_of_pos_right (by decide)
  refine ⟨sign ⟨s.nextId, none, none⟩ sec now, ?_, ?_, ?_, ?_, ?_, ?_⟩
  · simp [signup, hdup]
  · simp [verify, sign, hlt]
  · intro n hn
    exact if_neg (fun hc => absurd hc.2 (Nat.not_lt.mpr hn))
  · intro pl hne n
    refine if_neg (fun hc => ?_)
    exact hne (congrArg Prod.snd hc.1).symm
  · intro sg hne n
    exact if_neg (fun hc => hne hc.1)
  · intro un pw x hx
    refine ⟨sign ⟨x.id, none, none⟩ sec now, ?_, ?_⟩
    · simp [login, hx]
    · simp [verify, sign, hlt]

/-- C2 witness: signing up alice on an empty store yields a token that
verifies back to her record id (0). -/
theorem token_roundtrip_witness :
    findDuplicate "alice" "a@x.com" (⟨0, []⟩ : UserStore) = none ∧
    (∃ t : Token,
      signup (some "k") 0 "alice" "pw" "a@x.com" ⟨0, []⟩ =
        (Status.ok, some t, ⟨1, [⟨0, "alice", "pw", "a@x.com"⟩]⟩) ∧
      verify t "k" 0 = some ⟨0, none, none⟩ ∧
      (∀ n, t.payload.exp ≤ n → verify t "k" n = none) ∧
      (∀ pl : Payload, pl ≠ t.payload →
        ∀ n, verify { payload := pl, sig := t.sig } "k" n = none) ∧
      (∀ sg, sg ≠ t.sig →
        ∀ n, verify { payload := t.payload, sig := sg } "k" n = none) ∧
      (∀ un pw x,
        (⟨0, []⟩ : UserStore).users.find?
            (fun y => y.username == un && y.password == pw) = some x →
        ∃ t2 : Token, login (some "k") 0 un pw ⟨0, []⟩ = (Status.ok, some t2) ∧
          verify t2 "k" 0 = some ⟨x.id, none, none⟩)) :=
  ⟨rfl, token_roundtrip "k" 0 "alice" "pw" "a@x.com" ⟨0, []⟩ rfl⟩

/-- C3: posting an array of N valid jobs yields Created and exactly N new
records, each retrievable by its assigned id through GET /api/jobs/:id;
posting a single valid job creates exactly one record. -/
theorem jobs_bulk_create (js : List Job) (j : Job) (s : JobStore) (hwf : s.wf) :
    ∃ created : List (Nat × Job),
      postJobs (JobsBody.arr js) s =
        (Status.created, created, ⟨s.nextId + js.length, s.jobs ++ created⟩) ∧
      created.length = js.length ∧
      (∀ q ∈ created,
        getJob q.1 ⟨s.nextId + js.length, s.jobs ++ created⟩ = (Status.ok, some q)) ∧
      (postJobs (JobsBody.single j) s).2.2.jobs.length = s.jobs.length + 1 := by
  refine ⟨assignIds s.nextId js, rfl, assignIds_length s.nextId js, ?_, ?_⟩
  · intro q hq
    have hnone : s.jobs.find? (fun r => r.1 == q.1) = none := by
      apply find_pred_none
      intro a ha
      simp only [beq_iff_eq]
      have h1 : a.1 < s.nextId := hwf a ha
      have h2 : s.nextId ≤ q.1 := assignIds_mem_lb s.nextId js q hq
      omega
    have hfind : (s.jobs ++ assignIds s.nextId js).find? (fun r => r.1 == q.1) = some q := by
      rw [List.find?_append, hnone, Option.none_or]
      exact assignIds_find_self s.nextId js q hq
    simp [getJob, hfind]
  · simp [postJobs, assignIds]

/-- C3 witness: three concrete jobs posted onto an empty store. -/
theorem jobs_bulk_create_witness :
    JobStore.wf ⟨0, []⟩ ∧
    (∃ created : List (Nat × Job),
      postJobs (JobsBody.arr
          [⟨"t1", none, 0, "d", "l", "e", "p", "", "", "", []⟩,
           ⟨"t2", none, 0, "d", "l", "e", "p", "", "", "", []⟩,
           ⟨"t3", none, 0, "d", "l", "e", "p", "", "", "", []⟩]) ⟨0, []⟩ =
        (Status.created, created, ⟨0 + 3, [] ++ created⟩) ∧
      created.length = 3 ∧
      (∀ q ∈ created, getJob q.1 ⟨0 + 3, [] ++ created⟩ = (Status.ok, some q)) ∧
      (postJobs (JobsBody.single ⟨"t1", none, 0, "d", "l", "e", "p", "", "", "", []⟩)
          ⟨0, []⟩).2.2.jobs.length = ([] : List (Nat × Job)).length + 1) :=
  ⟨fun q hq => absurd hq (List.not_mem_nil q),
    jobs_bulk_create
      [⟨"t1", none, 0, "d", "l", "e", "p", "", "", "", []⟩,
       ⟨"t2", none, 0, "d", "l", "e", "p", "", "", "", []⟩,
       ⟨"t3", none, 0, "d", "l", "e", "p", "", "", "", []⟩]
      ⟨"t1", none, 0, "d", "l", "e", "p", "", "", "", []⟩ ⟨0, []⟩
      (fun q hq => absurd hq (List.not_mem_nil q))⟩

/-- C8: a request to the bcrypt revision's GET /protected that carries a
valid bearer token (second space-separated header part, verifying to
claims c) yields NotFound when no stored user has id c.id, and otherwise
the matched user's record with the password projected away. -/
theorem protected_returns_user (sec : String) (now : Nat) (t : Token)
    (pre : Option Token) (s : UserStore) (c : Claims)
    (hv : verify t sec now = some c) :
    (s.users.find? (fun x => x.id == c.id) = none →
      getProtectedB (some sec) now (some [pre, some t]) s = (Status.notFound, none)) ∧
    (∀ u, s.users.find? (fun x => x.id == c.id) = some u →
      u.id = c.id ∧
      getProtectedB (some sec) now (some [pre, some t]) s =
        (Status.ok, some ⟨u.id, u.username, u.email⟩)) := by
  have hauth : authenticateB (some sec) now (some [pre, some t]) = Except.ok c := by
    simp [authenticateB, hv]
  constructor
  · intro hn
    simp [getProtectedB, hauth, hn]
  · intro u hu
    refine ⟨?_, ?_⟩
    · simpa using List.find?_some hu
    · simp [getProtectedB, hauth, hu]

/-- C8 witness: a freshly signed token for id 0 against a store holding
alice under id 0 returns her record without the password field. -/
theorem protected_returns_user_witness :
    verify (sign ⟨0, none, none⟩ "k" 0) "k" 0 = some ⟨0, none, none⟩ ∧
    ((⟨0, "alice", "pw", "a@x.com"⟩ : User).id = (⟨0, none, none⟩ : Claims).id ∧
      getProtectedB (some "k") 0 (some [none, some (sign ⟨0, none, none⟩ "k" 0)])
          ⟨1, [⟨0, "alice", "pw", "a@x.com"⟩]⟩ =
        (Status.ok, some ⟨0, "alice", "a@x.com"⟩)) :=
  ⟨rfl,
    (protected_returns_user "k" 0 (sign ⟨0, none, none⟩ "k" 0) none
        ⟨1, [⟨0, "alice", "pw", "a@x.com"⟩]⟩ ⟨0, none, none⟩ rfl).2
      ⟨0, "alice", "pw", "a@x.com"⟩ rfl⟩

/-- C9: when PUT /feedback/:id matches an existing record (the collection
splits as l1 ++ d :: l2 with d the unique record carrying the id), only
that record changes: the surrounding records l1 and l2 are returned
untouched, and inside the updated record every supplied field carries its
supplied value, updatedAt carries the server timestamp, and every other
field keeps its previous value.  (Proved over the collection operation the
handler invokes; in src/index.js itself the `db` handle is unbound, see
the C6 theorems.) -/
theorem update_feedback_frame (c : FColl) (id : Nat)
    (updates : List (String × String)) (ts : String)
    (l1 l2 : List FDoc) (d : FDoc)
    (hsplit : c.docs = l1 ++ d :: l2) (hd : d.id = id)
    (h1 : ∀ x ∈ l1, x.id ≠ id) (hnd : (updates.map Prod.fst).Nodup) :
    ∃ d2 : FDoc,
      putFeedback (some c) id updates ts =
        (Status.ok, some ⟨c.nextId, l1 ++ d2 :: l2⟩) ∧
      d2.id = d.id ∧
      lookupField d2.fields "updatedAt" = some ts ∧
      (∀ k v, (k, v) ∈ updates → k ≠ "updatedAt" →
        lookupField d2.fields k = some v) ∧
      (∀ k, k ∉ updates.map Prod.fst → k ≠ "updatedAt" →
        lookupField d2.fields k = lookupField d.fields k) := by
  have hws := updateDocs_skip id (updates ++ [("updatedAt", ts)]) l1 (d :: l2) h1
  have hhit := updateDocs_hit id (updates ++ [("updatedAt", ts)]) d l2 hd
  refine ⟨⟨d.id, applySet d.fields (updates ++ [("updatedAt", ts)])⟩, ?_, rfl, ?_, ?_, ?_⟩
  · simp only [putFeedback, hsplit, hws, hhit]
    simp
  · rw [lookup_applySet, lookupLast_append]
    simp [lookupLast]
  · intro k v hkv hkne
    rw [lookup_applySet, lookupLast_append]
    have hne2 : ¬ "updatedAt" = k := fun h => hkne h.symm
    have h2 : lookupLast [("updatedAt", ts)] k = none := by
      simp [lookupLast, hne2]
    rw [h2, Option.none_or, lookupLast_of_nodup updates k v hkv hnd]
    rfl
  · intro k hk hkne
    rw [lookup_applySet, lookupLast_append]
    have hne2 : ¬ "updatedAt" = k := fun h => hkne h.symm
    have h2 : lookupLast [("updatedAt", ts)] k = none := by
      simp [lookupLast, hne2]
    rw [h2, Option.none_or, lookupLast_not_mem updates k hk]
    rfl

/-- C9 witness: updating the message of the only record of a two-record
collection changes exactly that field plus updatedAt and keeps the
record's mood field and the other record intact. -/
theorem update_feedback_frame_witness :
    ((⟨5, [⟨7, [("note", "keep")]⟩, ⟨0, [("message", "hi"), ("mood", "ok")]⟩]⟩ :
        FColl).docs =
      [⟨7, [("note", "keep")]⟩] ++ ⟨0, [("message", "hi"), ("mood", "ok")]⟩ :: []) ∧
    (∀ x ∈ [(⟨7, [("note", "keep")]⟩ : FDoc)], x.id ≠ 0) ∧
    (∃ d2 : FDoc,
      putFeedback (some ⟨5, [⟨7, [("note", "keep")]⟩,
          ⟨0, [("message", "hi"), ("mood", "ok")]⟩]⟩) 0 [("message", "bye")] "T" =
        (Status.ok, some ⟨5, [⟨7, [("note", "keep")]⟩] ++ d2 :: []⟩) ∧
      d2.id = (⟨0, [("message", "hi"), ("mood", "ok")]⟩ : FDoc).id ∧
      lookupField d2.fields "updatedAt" = some "T" ∧
      (∀ k v, (k, v) ∈ [("message", "bye")] → k ≠ "updatedAt" →
        lookupField d2.fields k = some v) ∧
      (∀ k, k ∉ [("message", "bye")].map Prod.fst → k ≠ "updatedAt" →
        lookupField d2.fields k =
          lookupField (⟨0, [("message", "hi"), ("mood", "ok")]⟩ : FDoc).fields k)) :=
  ⟨rfl, by decide,
    update_feedback_frame ⟨5, [⟨7, [("note", "keep")]⟩,
        ⟨0, [("message", "hi"), ("mood", "ok")]⟩]⟩ 0 [("message", "bye")] "T"
      [⟨7, [("note", "keep")]⟩] [] ⟨0, [("message", "hi"), ("mood", "ok")]⟩
      rfl rfl (by decide) (by simp)⟩

/-- C10: the direct-collection create handler stores, beyond username and
message, every additional body field verbatim (any key other than the
three it sets itself) plus a server-assigned createdAt — the persisted
record is not restricted to the documented shape. -/
theorem create_feedback_extra_fields (c : FColl) (body : Doc) (ts : String)
    (hnd : (body.map Prod.fst).Nodup)
    (hval : (falsy (lookupField body "username") ||
      falsy (lookupField body "message")) = false) :
    ∃ d : FDoc,
      postFeedback (some c) body ts =
        (Status.created, some ⟨c.nextId + 1, c.docs ++ [d]⟩, some c.nextId) ∧
      d.id = c.nextId ∧
      lookupField d.fields "createdAt" = some ts ∧
      (∀ k v, (k, v) ∈ body → k ≠ "username" → k ≠ "message" → k ≠ "createdAt" →
        lookupField d.fields k = some v) := by
  refine ⟨⟨c.nextId, applySet []
      ([("username", (lookupField body "username").getD ""),
        ("message", (lookupField body "message").getD "")] ++
        body.filter (fun kv => kv.1 != "username" && kv.1 != "message") ++
        [("createdAt", ts)])⟩, ?_, rfl, ?_, ?_⟩
  · simp [postFeedback, hval]
  · rw [lookup_applySet, lookupLast_append]
    simp [lookupLast]
  · intro k v hkv hu hm hc
    have hrest : (k, v) ∈ body.filter (fun kv => kv.1 != "username" && kv.1 != "message") :=
      List.mem_filter.mpr ⟨hkv, by simp [hu, hm]⟩
    have hndrest :
        ((body.filter (fun kv => kv.1 != "username" && kv.1 != "message")).map
          Prod.fst).Nodup :=
      List.Nodup.sublist (List.Sublist.map Prod.fst (List.filter_sublist body)) hnd
    rw [lookup_applySet, lookupLast_append]
    have hne2 : ¬ "createdAt" = k := fun h => hc h.symm
    have hcAt : lookupLast [("createdAt", ts)] k = none := by
      simp [lookupLast, hne2]
    rw [hcAt, Option.none_or, lookupLast_append,
      lookupLast_of_nodup _ k v hrest hndrest]
    rfl

/-- C10 witness: a body with an undocumented rating field; the stored
record keeps it verbatim alongside the server-assigned createdAt. -/
theorem create_feedback_extra_fields_witness :
    (([("username", "a"), ("message", "m"), ("rating", "5")] : Doc).map
      Prod.fst).Nodup ∧
    (falsy (lookupField [("username", "a"), ("message", "m"), ("rating", "5")]
        "username") ||
      falsy (lookupField [("username", "a"), ("message", "m"), ("rating", "5")]
        "message")) = false ∧
    (∃ d : FDoc,
      postFeedback (some ⟨0, []⟩)
          [("username", "a"), ("message", "m"), ("rating", "5")] "T" =
        (Status.created, some ⟨0 + 1, [] ++ [d]⟩, some 0) ∧
      d.id = 0 ∧
      lookupField d.fields "createdAt" = some "T" ∧
      (∀ k v, (k, v) ∈ ([("username", "a"), ("message", "m"), ("rating", "5")] : Doc) →
        k ≠ "username" → k ≠ "message" → k ≠ "createdAt" →
        lookupField d.fields k = some v)) :=
  ⟨by decide, rfl,
    create_feedback_extra_fields ⟨0, []⟩
      [("username", "a"), ("message", "m"), ("rating", "5")] "T" (by decide) rfl⟩

end Jobby
